import Mathlib

/-!
Verification of the vscode-mcp-server gateway against its specification.

This file gives a shallow embedding of the TypeScript sources:

* `src/tools/edit-tools.ts` — `createWorkspaceFile`, `replaceWorkspaceFileLines`
* `src/tools/file-tools.ts` — `readWorkspaceFile` (with line-slicing support)
* `src/server.ts` — express route dispatch of `setupRoutes` and the
  loopback bind performed by `MCPServer.start`
* `src/extension.ts` — `toggleServerState` and `getExtensionTerminal`

Documents are modelled as their list of lines together with their
end-of-line sequence (the `eol` attribute of a VS Code `TextDocument`);
`TextLine.text` never contains the line break, so joining code is modelled
over the line list.  The workspace file store is a list of
`(path, content)` pairs; TypeScript strings are modelled by `String`,
JavaScript numbers used as line indices by `Int`, and the byte length of a
stored file by the UTF-8 byte size of its content (the file body is
produced by `TextEncoder`, which encodes to UTF-8).
-/

/-- Model of JavaScript `s.split(sep)` for a one-character separator:
auxiliary recursion over the character list, `acc` holding the current
(reversed) segment. -/
def splitCharAux (sep : Char) : List Char → List Char → List String
  | [], acc => [String.mk acc.reverse]
  | c :: cs, acc =>
    if c = sep then String.mk acc.reverse :: splitCharAux sep cs []
    else splitCharAux sep cs (c :: acc)

/-- Model of JavaScript `s.split(sep)` for a one-character separator. -/
def splitChar (sep : Char) (s : String) : List String :=
  splitCharAux sep s.data []

/-- The split helper never returns an empty list, mirroring JavaScript
where the empty string splits to a one-element list. -/
theorem splitCharAux_ne_nil (sep : Char) (l acc : List Char) :
    splitCharAux sep l acc ≠ [] := by
  induction l generalizing acc with
  | nil => simp [splitCharAux]
  | cons c cs ih =>
    by_cases h : c = sep <;> simp [splitCharAux, h, ih]

theorem splitChar_length_pos (sep : Char) (s : String) :
    0 < (splitChar sep s).length := by
  have h := splitCharAux_ne_nil sep s.data []
  cases hs : splitCharAux sep s.data [] with
  | nil => exact absurd hs h
  | cons a as => simp [splitChar, hs]

/- ## Line-range edit validator (`src/tools/edit-tools.ts`) -/

/-- The end-of-line sequence of a VS Code `TextDocument` (`document.eol`). -/
inductive EndOfLine
  | lf
  | crlf
deriving DecidableEq, Repr

/-- The separator string corresponding to an `EndOfLine` value. -/
def EndOfLine.separator : EndOfLine → String
  | .lf => "\n"
  | .crlf => "\r\n"

/-- A VS Code text document: its lines (each `lineAt(i).text`, which never
contains the line break) and its end-of-line sequence. -/
structure TextDocument where
  lines : List String
  eol : EndOfLine
deriving DecidableEq, Repr

/-- The failure cases of `replaceWorkspaceFileLines`: the two range
validations, the original-code (stale content) validation, and the host
rejecting the edit (`editor.edit` returning false). -/
inductive ReplaceError
  | startLineOutOfRange
  | endLineOutOfRange
  | originalCodeMismatch
  | editRejected
deriving DecidableEq, Repr

/-- The successful outcome of `replaceWorkspaceFileLines`: the new line
list of the document, and whether it was saved (`document.save()` runs
exactly on the success path). -/
structure ReplaceOutcome where
  doc : List String
  saved : Bool
deriving DecidableEq, Repr

/-- Embedding of `replaceWorkspaceFileLines` (src/tools/edit-tools.ts).
Mirrors the source step by step: validate `startLine`, validate `endLine`,
collect the texts of lines `startLine..endLine`, join them with `"\n"`,
compare with `originalCode`, then replace the range from the start of
`startLine` to the end of `endLine` with `content` and save.
`applySucceeds` is the boolean result the host returns from
`editor.edit`. -/
def replaceWorkspaceFileLines (document : TextDocument) (startLine endLine : Int)
    (content originalCode : String) (applySucceeds : Bool) :
    Except ReplaceError ReplaceOutcome :=
  if startLine < 0 ∨ startLine ≥ (document.lines.length : Int) then
    .error .startLineOutOfRange
  else if endLine < startLine ∨ endLine ≥ (document.lines.length : Int) then
    .error .endLineOutOfRange
  else
    let s := startLine.toNat
    let e := endLine.toNat
    let currentLines := (document.lines.drop s).take (e - s + 1)
    let currentContent := String.intercalate "\n" currentLines
    if currentContent ≠ originalCode then
      .error .originalCodeMismatch
    else if applySucceeds then
      .ok { doc := document.lines.take s ++ splitChar '\n' content ++
                   document.lines.drop (e + 1),
            saved := true }
    else
      .error .editRejected

/-- The line list of the document after a `replaceWorkspaceFileLines`
call: the new lines on success, the unchanged lines on any error (an
error is thrown before any edit is applied). -/
def replaceResultingLines (document : TextDocument) (startLine endLine : Int)
    (content originalCode : String) (applySucceeds : Bool) : List String :=
  match replaceWorkspaceFileLines document startLine endLine content originalCode
      applySucceeds with
  | .ok o => o.doc
  | .error _ => document.lines

/- ## Workspace file store, `createWorkspaceFile` and `readWorkspaceFile` -/

-- Equality of `Except` results is decidable when it is on both sides;
-- used to evaluate the embedded operations on concrete inputs.
deriving instance DecidableEq for Except

/-- The workspace file store: an association list from path to the text
content of the file (the stored bytes are the UTF-8 encoding of it, as
produced by `TextEncoder`). -/
abbrev FileStore : Type := List (String × String)

/-- Lookup of a file in the store. -/
def findFile (fs : FileStore) (path : String) : Option String :=
  (fs.find? (fun e => e.1 == path)).map (fun e => e.2)

/-- Store `content` at `path`, replacing any previous entry. -/
def setFile (fs : FileStore) (path content : String) : FileStore :=
  (path, content) :: fs.filter (fun e => ¬ e.1 = path)

/-- Failure of `createWorkspaceFile`: `vscode.workspace.applyEdit`
returned false and the function throws. -/
inductive CreateError
  | applyEditFailed
deriving DecidableEq, Repr

/-- Embedding of `createWorkspaceFile` (src/tools/edit-tools.ts).  The
function builds a `WorkspaceEdit.createFile` with the UTF-8 encoding of
`content` and the `overwrite` / `ignoreIfExists` options and applies it;
the host semantics of that edit are: an existing file is replaced when
`overwrite` is set, left untouched when only `ignoreIfExists` is set, and
otherwise the apply fails and the function throws. -/
def createWorkspaceFile (fs : FileStore) (path content : String)
    (overwrite ignoreIfExists : Bool) : Except CreateError FileStore :=
  match findFile fs path with
  | some _ =>
    if overwrite then .ok (setFile fs path content)
    else if ignoreIfExists then .ok fs
    else .error .applyEditFailed
  | none => .ok (setFile fs path content)

/-- Default maximum character count of `readWorkspaceFile`
(`DEFAULT_MAX_CHARACTERS` in src/tools/file-tools.ts). -/
def DEFAULT_MAX_CHARACTERS : Nat := 100000

/-- The failure cases of `readWorkspaceFile`: missing file
(`workspace.fs.readFile` throws), content over the character budget, and
the two line-range validations of the slicing branch. -/
inductive ReadError
  | fileNotFound
  | exceedsMaxCharacters
  | startLineOutOfRange
  | endLineBeforeStartLine
deriving DecidableEq, Repr

/-- The successful result of `readWorkspaceFile`: decoded text when an
encoding was supplied, raw bytes otherwise (carried as the text whose
UTF-8 encoding they are). -/
inductive ReadResult
  | text (s : String)
  | binary (s : String)
deriving DecidableEq, Repr

/-- Embedding of `readWorkspaceFile` (src/tools/file-tools.ts).  With an
encoding: decode the whole file, fail if its character count exceeds
`maxCharacters`, then, if `startLine >= 0 || endLine >= 0`, split into
lines, clamp `endLine` to the last line, validate the effective range and
return the joined slice; otherwise return the whole text.  Without an
encoding: fail if the byte length exceeds `maxCharacters`, else return
the raw bytes. -/
def readWorkspaceFile (fs : FileStore) (path : String) (encoding : Option String)
    (maxCharacters : Nat) (startLine endLine : Int) :
    Except ReadError ReadResult :=
  match findFile fs path with
  | none => .error .fileNotFound
  | some fileContent =>
    match encoding with
    | some _ =>
      let textContent := fileContent
      if textContent.length > maxCharacters then
        .error .exceedsMaxCharacters
      else if startLine ≥ 0 ∨ endLine ≥ 0 then
        let lines := splitChar '\n' textContent
        let effectiveStartLine : Int := if startLine ≥ 0 then startLine else 0
        let effectiveEndLine : Int :=
          if endLine ≥ 0 then min endLine ((lines.length : Int) - 1)
          else (lines.length : Int) - 1
        if effectiveStartLine ≥ (lines.length : Int) then
          .error .startLineOutOfRange
        else if effectiveEndLine < effectiveStartLine then
          .error .endLineBeforeStartLine
        else
          .ok (.text (String.intercalate "\n"
            ((lines.drop effectiveStartLine.toNat).take
              (effectiveEndLine.toNat + 1 - effectiveStartLine.toNat))))
      else
        .ok (.text textContent)
    | none =>
      if fileContent.utf8ByteSize > maxCharacters then
        .error .exceedsMaxCharacters
      else
        .ok (.binary fileContent)

/- ## Protocol transport adapter (`src/server.ts`, `setupRoutes` and `start`) -/

/-- HTTP methods for which `setupRoutes` installs handlers. -/
inductive HttpMethod
  | get
  | post
  | httpDelete
  | options
deriving DecidableEq, Repr

/-- What a request to the express application is routed to: the streamable
transport (invocation endpoint or SSE stream) — the only paths on which a
request can reach the tool registry — or one of the fixed responses. -/
inductive RouteOutcome
  | transportInvocation
  | transportStream
  | methodNotAllowed (status : Nat) (code : Int) (message : String)
  | corsPreflight (status : Nat)
  | noRoute
deriving DecidableEq, Repr

/-- Embedding of `MCPServer.setupRoutes` (src/server.ts): the express
routes in registration order.  `POST /mcp` and `GET /mcp/sse` are handed
to the transport; `GET /mcp` and `DELETE /mcp` answer with HTTP 405 and
the fixed JSON-RPC error object `{code: -32000, message: "Method not
allowed."}`; `OPTIONS /mcp` answers the CORS preflight with 204. -/
def setupRoutesDispatch (m : HttpMethod) (path : String) : RouteOutcome :=
  if m = .post ∧ path = "/mcp" then .transportInvocation
  else if m = .get ∧ path = "/mcp/sse" then .transportStream
  else if m = .get ∧ path = "/mcp" then
    .methodNotAllowed 405 (-32000) "Method not allowed."
  else if m = .httpDelete ∧ path = "/mcp" then
    .methodNotAllowed 405 (-32000) "Method not allowed."
  else if m = .options ∧ path = "/mcp" then .corsPreflight 204
  else .noRoute

/-- A listening socket: the port and the interface it is bound to. -/
structure BoundSocket where
  port : Nat
  host : String
deriving DecidableEq, Repr

/-- Embedding of the bind performed by `MCPServer.start` (src/server.ts):
`this.app.listen(this.port, '127.0.0.1', ...)` — the listening socket is
always bound to the loopback interface. -/
def MCPServer.start (port : Nat) : BoundSocket :=
  { port := port, host := "127.0.0.1" }

/- ## Lifecycle / toggle controller (`src/extension.ts`, `toggleServerState`) -/

/-- The module-level state of the extension that `toggleServerState`
manipulates: the `serverEnabled` flag, the current `mcpServer` instance
(carrying the socket its `start` bound), and the persisted
`mcpServerEnabled` value in `globalState`. -/
structure GatewayState where
  serverEnabled : Bool
  mcpServer : Option BoundSocket
  persisted : Bool
deriving DecidableEq, Repr

/-- The initial extension state: the server is disabled by default and no
instance exists. -/
def initialGatewayState : GatewayState :=
  { serverEnabled := false, mcpServer := none, persisted := false }

/-- Embedding of `toggleServerState` (src/extension.ts): flip
`serverEnabled`, persist the new value, then — when now enabled — create
and start a server only if none exists, and — when now disabled — stop
and drop the server only if one exists. -/
def toggleServerState (port : Nat) (st : GatewayState) : GatewayState :=
  let enabled := !st.serverEnabled
  let st1 : GatewayState :=
    { st with serverEnabled := enabled, persisted := enabled }
  if enabled then
    match st1.mcpServer with
    | none => { st1 with mcpServer := some (MCPServer.start port) }
    | some _ => st1
  else
    match st1.mcpServer with
    | some _ => { st1 with mcpServer := none }
    | none => st1

/-- The extension state after `n` invocations of the toggle command from
the initial state. -/
def runToggles (port : Nat) : Nat → GatewayState
  | 0 => initialGatewayState
  | n + 1 => toggleServerState port (runToggles port n)

/- ## Console session manager (`src/extension.ts`, `getExtensionTerminal`) -/

/-- The fixed name of the shared terminal (`TERMINAL_NAME`). -/
def TERMINAL_NAME : String := "MCP Shell Commands"

/-- A VS Code terminal as seen through `vscode.window.terminals`: its
name, whether its `exitStatus` is defined (`exited`), and whether it was
created by this extension. -/
structure Terminal where
  id : Nat
  name : String
  exited : Bool
  createdByGateway : Bool
deriving DecidableEq, Repr

/-- The host terminal list (`vscode.window.terminals`) plus a counter for
fresh terminal identities. -/
structure TerminalWorld where
  terminals : List Terminal
  nextId : Nat
deriving DecidableEq, Repr

/-- Creation of a new terminal by
`vscode.window.createTerminal(TERMINAL_NAME)`: a fresh live terminal with
the fixed name, appended to the host list. -/
def createNewTerminal (w : TerminalWorld) : Terminal × TerminalWorld :=
  let fresh : Terminal :=
    { id := w.nextId, name := TERMINAL_NAME, exited := false,
      createdByGateway := true }
  (fresh, { terminals := w.terminals ++ [fresh], nextId := w.nextId + 1 })

/-- Embedding of `getExtensionTerminal` (src/extension.ts): look for the
first terminal named `TERMINAL_NAME` in `vscode.window.terminals`; if it
exists and its `exitStatus` is undefined, reuse it, otherwise create a
new terminal with that name. -/
def getExtensionTerminal (w : TerminalWorld) : Terminal × TerminalWorld :=
  match w.terminals.find? (fun t => t.name == TERMINAL_NAME) with
  | some t => if t.exited = false then (t, w) else createNewTerminal w
  | none => createNewTerminal w

/-- Events driving the console world: a shell-tool invocation requesting
the session, or the host closing a terminal (a terminal whose process
exits is removed from `vscode.window.terminals` when it closes). -/
inductive ConsoleEvent
  | request
  | externalClose (id : Nat)
deriving DecidableEq, Repr

/-- One step of the console world. -/
def stepConsole (w : TerminalWorld) : ConsoleEvent → TerminalWorld
  | .request => (getExtensionTerminal w).2
  | .externalClose i =>
    { w with terminals := w.terminals.filter (fun t => ¬ t.id = i) }

/-- The terminal world with no terminals yet. -/
def emptyTerminalWorld : TerminalWorld :=
  { terminals := [], nextId := 0 }

/-- The console world after a sequence of events starting from the empty
world. -/
def runConsole (evs : List ConsoleEvent) : TerminalWorld :=
  evs.foldl stepConsole emptyTerminalWorld

/- ## Theorems: line-range edit validator (C1, C2, C3) -/

/-- On a range failure the result is the corresponding range error, no
matter what `originalCode` or the host apply result are. -/
lemma replaceWorkspaceFileLines_range_err (document : TextDocument)
    (startLine endLine : Int) (content originalCode : String) (applySucceeds : Bool)
    (h : startLine < 0 ∨ startLine ≥ (document.lines.length : Int) ∨
         endLine < startLine ∨ endLine ≥ (document.lines.length : Int)) :
    replaceWorkspaceFileLines document startLine endLine content originalCode
        applySucceeds =
      .error (if startLine < 0 ∨ startLine ≥ (document.lines.length : Int)
              then ReplaceError.startLineOutOfRange
              else ReplaceError.endLineOutOfRange) := by
  unfold replaceWorkspaceFileLines
  by_cases h1 : startLine < 0 ∨ startLine ≥ (document.lines.length : Int)
  · rw [if_pos h1, if_pos h1]
  · have h2 : endLine < startLine ∨ endLine ≥ (document.lines.length : Int) := by
      rcases h with h | h | h | h
      · exact absurd (Or.inl h) h1
      · exact absurd (Or.inr h) h1
      · exact Or.inl h
      · exact Or.inr h
    rw [if_neg h1, if_pos h2, if_neg h1]

/-- With an in-range request, the function reduces to the comparison of
the joined current lines with `originalCode` followed by the edit. -/
lemma replaceWorkspaceFileLines_in_range (document : TextDocument)
    (startLine endLine : Int) (content originalCode : String) (applySucceeds : Bool)
    (h0 : 0 ≤ startLine) (h1 : startLine ≤ endLine)
    (h2 : endLine < (document.lines.length : Int)) :
    replaceWorkspaceFileLines document startLine endLine content originalCode
        applySucceeds =
      (if String.intercalate "\n" ((document.lines.drop startLine.toNat).take
            (endLine.toNat - startLine.toNat + 1)) ≠ originalCode then
        .error .originalCodeMismatch
      else if applySucceeds then
        .ok { doc := document.lines.take startLine.toNat ++ splitChar '\n' content ++
                     document.lines.drop (endLine.toNat + 1),
              saved := true }
      else
        .error .editRejected) := by
  unfold replaceWorkspaceFileLines
  rw [if_neg (by omega), if_neg (by omega)]

/-- C2: a `replace_lines` request with `startLine < 0`, `startLine ≥
lineCount`, `endLine < startLine` or `endLine ≥ lineCount` fails with one
of the two range-out-of-range errors, and it does so before any content
comparison or edit is attempted: the result does not depend on
`originalCode` or on whether the host would accept the edit. -/
theorem replace_lines_range_out_of_bounds (document : TextDocument)
    (startLine endLine : Int) (content originalCode : String) (applySucceeds : Bool)
    (h : startLine < 0 ∨ startLine ≥ (document.lines.length : Int) ∨
         endLine < startLine ∨ endLine ≥ (document.lines.length : Int)) :
    (∃ err, replaceWorkspaceFileLines document startLine endLine content
        originalCode applySucceeds = .error err ∧
        (err = ReplaceError.startLineOutOfRange ∨
         err = ReplaceError.endLineOutOfRange)) ∧
    (∀ (originalCode2 : String) (applySucceeds2 : Bool),
        replaceWorkspaceFileLines document startLine endLine content originalCode2
          applySucceeds2 =
        replaceWorkspaceFileLines document startLine endLine content originalCode
          applySucceeds) := by
  constructor
  · refine ⟨_, replaceWorkspaceFileLines_range_err document startLine endLine content
      originalCode applySucceeds h, ?_⟩
    split
    · exact Or.inl rfl
    · exact Or.inr rfl
  · intro originalCode2 applySucceeds2
    rw [replaceWorkspaceFileLines_range_err document startLine endLine content
          originalCode2 applySucceeds2 h,
        replaceWorkspaceFileLines_range_err document startLine endLine content
          originalCode applySucceeds h]

/-- C2 witness: `startLine = 5` on the 3-line file `["a","b","c"]` is
rejected with a range error. -/
theorem replace_lines_range_out_of_bounds_witness :
    (∃ err, replaceWorkspaceFileLines ⟨["a", "b", "c"], .lf⟩ 5 5 "X" "b" true =
        .error err ∧
        (err = ReplaceError.startLineOutOfRange ∨
         err = ReplaceError.endLineOutOfRange)) ∧
    (∀ (originalCode2 : String) (applySucceeds2 : Bool),
        replaceWorkspaceFileLines ⟨["a", "b", "c"], .lf⟩ 5 5 "X" originalCode2
          applySucceeds2 =
        replaceWorkspaceFileLines ⟨["a", "b", "c"], .lf⟩ 5 5 "X" "b" true) :=
  replace_lines_range_out_of_bounds ⟨["a", "b", "c"], .lf⟩ 5 5 "X" "b" true
    (by decide)

/-- C1 (amended): for an in-range `replace_lines` request, the current
text of the requested lines is reconstructed by joining them with `"\n"`
(regardless of the document's own end-of-line sequence) and compared
byte-for-byte with `originalCode`; on any mismatch the operation fails
with the stale-content error and the line content of the file is
unchanged — no partial application, no merge. -/
theorem replace_lines_stale_mismatch (document : TextDocument)
    (startLine endLine : Int) (content originalCode : String) (applySucceeds : Bool)
    (h0 : 0 ≤ startLine) (h1 : startLine ≤ endLine)
    (h2 : endLine < (document.lines.length : Int))
    (hm : String.intercalate "\n" ((document.lines.drop startLine.toNat).take
        (endLine.toNat - startLine.toNat + 1)) ≠ originalCode) :
    replaceWorkspaceFileLines document startLine endLine content originalCode
        applySucceeds = .error .originalCodeMismatch ∧
    replaceResultingLines document startLine endLine content originalCode
        applySucceeds = document.lines := by
  have h := replaceWorkspaceFileLines_in_range document startLine endLine content
    originalCode applySucceeds h0 h1 h2
  rw [if_pos hm] at h
  exact ⟨h, by unfold replaceResultingLines; rw [h]⟩

/-- C1 witness: a stale `originalCode` on `["a","b","c"]` fails and
leaves the lines unchanged. -/
theorem replace_lines_stale_mismatch_witness :
    replaceWorkspaceFileLines ⟨["a", "b", "c"], .lf⟩ 1 1 "B" "x" true =
      .error .originalCodeMismatch ∧
    replaceResultingLines ⟨["a", "b", "c"], .lf⟩ 1 1 "B" "x" true =
      ["a", "b", "c"] :=
  replace_lines_stale_mismatch ⟨["a", "b", "c"], .lf⟩ 1 1 "B" "x" true
    (by decide) (by decide) (by decide) (by decide)

/-- C1 counterexample: on a CRLF document with lines `["a","b"]`, the
text reconstructed with the document's own line separator is
`"a\r\nb"`, which mismatches `originalCode = "a\nb"` — yet the operation
does not fail with a stale-content error: it succeeds and changes the
file, because the source joins the lines with `"\n"` rather than with
the document's line separator. -/
theorem replace_lines_eol_counterexample :
    String.intercalate (EndOfLine.crlf).separator
        (((⟨["a", "b"], .crlf⟩ : TextDocument).lines.drop 0).take 2) ≠ "a\nb" ∧
    replaceWorkspaceFileLines ⟨["a", "b"], .crlf⟩ 0 1 "X" "a\nb" true =
      .ok { doc := ["X"], saved := true } := by decide

/-- C3: for an in-range `replace_lines` request whose `originalCode`
matches the current lines, the requested lines are replaced by the new
content as a single edit and the document is saved; if the host reports
that the apply failed, the operation fails with the edit-rejected
error. -/
theorem replace_lines_match_applies_and_saves (document : TextDocument)
    (startLine endLine : Int) (content originalCode : String)
    (h0 : 0 ≤ startLine) (h1 : startLine ≤ endLine)
    (h2 : endLine < (document.lines.length : Int))
    (hm : String.intercalate "\n" ((document.lines.drop startLine.toNat).take
        (endLine.toNat - startLine.toNat + 1)) = originalCode) :
    ∀ applySucceeds : Bool,
      replaceWorkspaceFileLines document startLine endLine content originalCode
          applySucceeds =
        (if applySucceeds then
          .ok { doc := document.lines.take startLine.toNat ++
                       splitChar '\n' content ++
                       document.lines.drop (endLine.toNat + 1),
                saved := true }
        else
          .error .editRejected) := by
  intro applySucceeds
  rw [replaceWorkspaceFileLines_in_range document startLine endLine content
        originalCode applySucceeds h0 h1 h2,
      if_neg (not_not_intro hm)]

/-- C3 witness: `replace_lines(start=1, end=1, content="B",
originalCode="b")` on `["a","b","c"]` succeeds, the file becomes
`["a","B","c"]` and is saved. -/
theorem replace_lines_match_witness :
    replaceWorkspaceFileLines ⟨["a", "b", "c"], .lf⟩ 1 1 "B" "b" true =
      .ok { doc := ["a", "B", "c"], saved := true } := by
  rw [replace_lines_match_applies_and_saves ⟨["a", "b", "c"], .lf⟩ 1 1 "B" "b"
        (by decide) (by decide) (by decide) (by decide) true]
  decide

/- ## Theorems: file read/write (C4, C5, C10) -/

/-- Looking up a path right after storing it yields the stored content. -/
lemma findFile_setFile (fs : FileStore) (path content : String) :
    findFile (setFile fs path content) path = some content := by
  simp [findFile, setFile, List.find?_cons_of_pos]

/-- Unfolding of `readWorkspaceFile` with an encoding once the file
content is known. -/
lemma readWorkspaceFile_found (fs : FileStore) (path fileContent enc : String)
    (maxCharacters : Nat) (startLine endLine : Int)
    (hf : findFile fs path = some fileContent) :
    readWorkspaceFile fs path (some enc) maxCharacters startLine endLine =
      (if fileContent.length > maxCharacters then
        .error .exceedsMaxCharacters
      else if startLine ≥ 0 ∨ endLine ≥ 0 then
        if (if startLine ≥ 0 then startLine else 0) ≥
            ((splitChar '\n' fileContent).length : Int) then
          .error .startLineOutOfRange
        else if (if endLine ≥ 0 then
                  min endLine (((splitChar '\n' fileContent).length : Int) - 1)
                 else ((splitChar '\n' fileContent).length : Int) - 1) <
                (if startLine ≥ 0 then startLine else 0) then
          .error .endLineBeforeStartLine
        else
          .ok (.text (String.intercalate "\n"
            (((splitChar '\n' fileContent).drop
                (if startLine ≥ 0 then startLine else 0).toNat).take
              ((if endLine ≥ 0 then
                  min endLine (((splitChar '\n' fileContent).length : Int) - 1)
                else ((splitChar '\n' fileContent).length : Int) - 1).toNat + 1 -
               (if startLine ≥ 0 then startLine else 0).toNat))))
      else
        .ok (.text fileContent)) := by
  unfold readWorkspaceFile
  rw [hf]

/-- Unfolding of `readWorkspaceFile` without an encoding once the file
content is known. -/
lemma readWorkspaceFile_found_binary (fs : FileStore) (path fileContent : String)
    (maxCharacters : Nat) (startLine endLine : Int)
    (hf : findFile fs path = some fileContent) :
    readWorkspaceFile fs path none maxCharacters startLine endLine =
      (if fileContent.utf8ByteSize > maxCharacters then
        .error .exceedsMaxCharacters
      else
        .ok (.binary fileContent)) := by
  unfold readWorkspaceFile
  rw [hf]

/-- C4: whenever `create_file(path, content)` succeeds (default flags),
a subsequent `read_file(path)` with the default line range (both -1)
returns exactly `content` when its character count is within the budget,
and fails — always, for any store and path holding that content — when
the character count exceeds the budget. -/
theorem create_then_read_roundtrip (fs : FileStore) (path content : String)
    (maxCharacters : Nat) (fs2 : FileStore)
    (hc : createWorkspaceFile fs path content false false = .ok fs2) :
    (content.length ≤ maxCharacters →
        readWorkspaceFile fs2 path (some "utf-8") maxCharacters (-1) (-1) =
          .ok (.text content)) ∧
    (content.length > maxCharacters →
        readWorkspaceFile fs2 path (some "utf-8") maxCharacters (-1) (-1) =
          .error .exceedsMaxCharacters) := by
  unfold createWorkspaceFile at hc
  cases hfind : findFile fs path with
  | some old => rw [hfind] at hc; simp at hc
  | none =>
    rw [hfind] at hc
    simp only [Except.ok.injEq] at hc
    subst hc
    have hff := findFile_setFile fs path content
    constructor
    · intro hle
      rw [readWorkspaceFile_found (setFile fs path content) path content "utf-8"
            maxCharacters (-1) (-1) hff,
          if_neg (by omega), if_neg (by decide)]
    · intro hgt
      rw [readWorkspaceFile_found (setFile fs path content) path content "utf-8"
            maxCharacters (-1) (-1) hff,
          if_pos hgt]

/-- C4 witness: creating `"abc"` at `"f"` and reading it back with a
budget of 3 returns `"abc"`. -/
theorem create_then_read_roundtrip_witness :
    ("abc".length ≤ 3 →
        readWorkspaceFile [("f", "abc")] "f" (some "utf-8") 3 (-1) (-1) =
          .ok (.text "abc")) ∧
    ("abc".length > 3 →
        readWorkspaceFile [("f", "abc")] "f" (some "utf-8") 3 (-1) (-1) =
          .error .exceedsMaxCharacters) :=
  create_then_read_roundtrip [] "f" "abc" 3 [("f", "abc")] (by decide)

/-- C5: with an encoding, `read_file` fails whenever the decoded text of
the whole file exceeds `maxCharacters` — for every requested
`startLine`/`endLine` slice, i.e. the budget is checked on the whole
decoded content before any slicing; without an encoding the byte length
is checked against the same budget; the default budget is 100000. -/
theorem read_file_budget_checks (fs : FileStore) (path fileContent enc : String)
    (maxCharacters : Nat) (startLine endLine : Int)
    (hf : findFile fs path = some fileContent) :
    (fileContent.length > maxCharacters →
        readWorkspaceFile fs path (some enc) maxCharacters startLine endLine =
          .error .exceedsMaxCharacters) ∧
    (fileContent.utf8ByteSize > maxCharacters →
        readWorkspaceFile fs path none maxCharacters startLine endLine =
          .error .exceedsMaxCharacters) ∧
    DEFAULT_MAX_CHARACTERS = 100000 := by
  refine ⟨fun h => ?_, fun h => ?_, rfl⟩
  · rw [readWorkspaceFile_found fs path fileContent enc maxCharacters startLine
        endLine hf, if_pos h]
  · rw [readWorkspaceFile_found_binary fs path fileContent maxCharacters startLine
        endLine hf, if_pos h]

/-- C5 witness: a 3-character file with budget 2 fails even when only
the slice `0..5` is requested, and the byte-length check fails on the
same file without an encoding. -/
theorem read_file_budget_checks_witness :
    ("abc".length > 2 →
        readWorkspaceFile [("f", "abc")] "f" (some "utf-8") 2 0 5 =
          .error .exceedsMaxCharacters) ∧
    ("abc".utf8ByteSize > 2 →
        readWorkspaceFile [("f", "abc")] "f" none 2 0 5 =
          .error .exceedsMaxCharacters) ∧
    DEFAULT_MAX_CHARACTERS = 100000 :=
  read_file_budget_checks [("f", "abc")] "f" "abc" "utf-8" 2 0 5 (by decide)

/-- C10: for a text-mode read within the character budget and with a
valid `startLine`, an `endLine` pointing past the last line is silently
clamped to the last line: the result is the lines from `startLine` to
the end of the file joined by `"\n"`; a `startLine` at or beyond the
line count fails with the start-line out-of-range error. -/
theorem read_file_endline_clamped (fs : FileStore) (path fileContent enc : String)
    (maxCharacters : Nat) (startLine endLine : Int)
    (hf : findFile fs path = some fileContent)
    (hbudget : fileContent.length ≤ maxCharacters) :
    (0 ≤ startLine → startLine < ((splitChar '\n' fileContent).length : Int) →
        ((splitChar '\n' fileContent).length : Int) ≤ endLine →
        readWorkspaceFile fs path (some enc) maxCharacters startLine endLine =
          .ok (.text (String.intercalate "\n"
            ((splitChar '\n' fileContent).drop startLine.toNat)))) ∧
    (((splitChar '\n' fileContent).length : Int) ≤ startLine →
        readWorkspaceFile fs path (some enc) maxCharacters startLine endLine =
          .error .startLineOutOfRange) := by
  have hpos : 0 < (splitChar '\n' fileContent).length :=
    splitChar_length_pos '\n' fileContent
  constructor
  · intro hs0 hslt hend
    have he0 : endLine ≥ 0 := by omega
    rw [readWorkspaceFile_found fs path fileContent enc maxCharacters startLine
          endLine hf,
        if_neg (by omega), if_pos (Or.inl hs0)]
    simp only [if_pos hs0, if_pos he0]
    rw [min_eq_right (by omega), if_neg (by omega), if_neg (by omega)]
    have harith : (((splitChar '\n' fileContent).length : Int) - 1).toNat + 1 -
        startLine.toNat = (splitChar '\n' fileContent).length - startLine.toNat := by
      omega
    rw [harith, List.take_of_length_le (by rw [List.length_drop])]
  · intro hs
    have hs0 : startLine ≥ 0 := by omega
    rw [readWorkspaceFile_found fs path fileContent enc maxCharacters startLine
          endLine hf,
        if_neg (by omega), if_pos (Or.inl hs0)]
    simp only [if_pos hs0]
    rw [if_pos (by omega)]

/-- C10 witness: reading lines `1..99` of the 3-line file `"a\nb\nc"`
returns `"b\nc"` — the out-of-range end line is clamped. -/
theorem read_file_endline_clamped_witness :
    readWorkspaceFile [("f", "a\nb\nc")] "f" (some "utf-8") 100 1 99 =
      .ok (.text "b\nc") := by
  rw [(read_file_endline_clamped [("f", "a\nb\nc")] "f" "a\nb\nc" "utf-8" 100 1 99
        (by decide) (by decide)).1 (by decide) (by decide) (by decide)]
  decide

/- ## Theorems: transport adapter and lifecycle (C6, C7, C8) -/

/-- C6: a GET request and a DELETE request on the `/mcp` invocation
endpoint are both answered with HTTP 405 carrying the fixed structured
error object with numeric code -32000 and message "Method not allowed.",
and neither is routed to the transport — so neither can reach the tool
registry or any handler. -/
theorem mcp_get_delete_method_not_allowed :
    setupRoutesDispatch .get "/mcp" =
      .methodNotAllowed 405 (-32000) "Method not allowed." ∧
    setupRoutesDispatch .httpDelete "/mcp" =
      .methodNotAllowed 405 (-32000) "Method not allowed." ∧
    setupRoutesDispatch .get "/mcp" ≠ .transportInvocation ∧
    setupRoutesDispatch .get "/mcp" ≠ .transportStream ∧
    setupRoutesDispatch .httpDelete "/mcp" ≠ .transportInvocation ∧
    setupRoutesDispatch .httpDelete "/mcp" ≠ .transportStream := by decide

/-- One toggle step preserves the gateway-state invariant: the server
instance exists exactly when enabled, the persisted flag matches, and
any existing instance is the one started on the loopback socket. -/
lemma toggleServerState_invariant (port : Nat) (st : GatewayState)
    (h1 : st.mcpServer.isSome = st.serverEnabled)
    (h3 : st.mcpServer = none ∨ st.mcpServer = some (MCPServer.start port)) :
    ((toggleServerState port st).mcpServer.isSome =
      (toggleServerState port st).serverEnabled) ∧
    ((toggleServerState port st).persisted =
      (toggleServerState port st).serverEnabled) ∧
    ((toggleServerState port st).mcpServer = none ∨
     (toggleServerState port st).mcpServer = some (MCPServer.start port)) := by
  rcases st with ⟨en, srv, p⟩
  rcases h3 with rfl | rfl <;> cases en <;> simp_all [toggleServerState]

/-- The gateway-state invariant holds after any number of toggles from
the initial state. -/
lemma runToggles_invariant (port n : Nat) :
    ((runToggles port n).mcpServer.isSome = (runToggles port n).serverEnabled) ∧
    ((runToggles port n).persisted = (runToggles port n).serverEnabled) ∧
    ((runToggles port n).mcpServer = none ∨
     (runToggles port n).mcpServer = some (MCPServer.start port)) := by
  induction n with
  | zero => simp [runToggles, initialGatewayState]
  | succ n ih =>
    obtain ⟨h1, _, h3⟩ := ih
    exact toggleServerState_invariant port (runToggles port n) h1 h3

/-- C7: whenever the HTTP transport is started it binds to the loopback
interface 127.0.0.1 (in particular, never to the wildcard interface),
for every configured port, and consequently every server instance
reachable by toggling holds a loopback-bound socket. -/
theorem server_binds_loopback_only :
    ∀ port : Nat,
      (MCPServer.start port).host = "127.0.0.1" ∧
      (MCPServer.start port).host ≠ "0.0.0.0" ∧
      ∀ n : Nat,
        Option.all (fun sock => sock.host == "127.0.0.1")
          (runToggles port n).mcpServer = true := by
  intro port
  refine ⟨rfl, by show ("127.0.0.1" : String) ≠ "0.0.0.0"; decide, fun n => ?_⟩
  rcases (runToggles_invariant port n).2.2 with h | h <;>
    rw [h] <;> simp [MCPServer.start, Option.all]

/-- C8 counterexample: the extension exposes a single toggle command,
not separate enable and disable operations; invoking it while the state
is Enabled (reached by one toggle) is not a no-op — it disables the
gateway, so after two consecutive invocations no server instance exists
and no socket is bound, rather than exactly one. -/
theorem toggle_twice_not_noop_counterexample :
    (runToggles 3000 1).serverEnabled = true ∧
    toggleServerState 3000 (runToggles 3000 1) ≠ runToggles 3000 1 ∧
    (toggleServerState 3000 (runToggles 3000 1)).serverEnabled = false ∧
    (toggleServerState 3000 (runToggles 3000 1)).mcpServer = none := by decide

/-- C8 (amended): after any sequence of toggle operations from the
initial state, exactly one server instance exists — holding the single
bound transport socket — when the state is Enabled and none exists when
it is Disabled, and the persisted enabled flag always matches the
current state. -/
theorem toggle_state_invariant :
    ∀ (port n : Nat),
      (runToggles port n).mcpServer =
        (if (runToggles port n).serverEnabled then some (MCPServer.start port)
         else none) ∧
      (runToggles port n).persisted = (runToggles port n).serverEnabled := by
  intro port n
  obtain ⟨h1, h2, h3⟩ := runToggles_invariant port n
  refine ⟨?_, h2⟩
  rcases h3 with h | h <;> rw [h] <;> rw [h] at h1 <;> simp at h1 <;> simp [h1]

/- ## Theorems: console session manager (C9) -/

/-- If the first terminal carrying the session name is live, it is
reused and the host terminal list is unchanged. -/
lemma getExtensionTerminal_reuse (w : TerminalWorld) (t : Terminal)
    (hfind : w.terminals.find? (fun u => u.name == TERMINAL_NAME) = some t)
    (hlive : t.exited = false) :
    getExtensionTerminal w = (t, w) := by
  unfold getExtensionTerminal
  rw [hfind]
  show (if t.exited = false then (t, w) else createNewTerminal w) = (t, w)
  rw [if_pos hlive]

/-- The terminal returned to the shell tool is always live and carries
the fixed session name. -/
lemma getExtensionTerminal_live (w : TerminalWorld) :
    (getExtensionTerminal w).1.name = TERMINAL_NAME ∧
    (getExtensionTerminal w).1.exited = false := by
  unfold getExtensionTerminal
  cases hfind : w.terminals.find? (fun u => u.name == TERMINAL_NAME) with
  | none => simp [createNewTerminal]
  | some t =>
    by_cases ht : t.exited = false
    · have hp := List.find?_some hfind
      simp only [beq_iff_eq] at hp
      simp [if_pos ht, hp, ht]
    · simp [if_neg ht, createNewTerminal]

/-- When every terminal with the session name has exited, a fresh
terminal is created. -/
lemma getExtensionTerminal_all_exited (w : TerminalWorld)
    (h : ∀ t ∈ w.terminals, t.name = TERMINAL_NAME → t.exited = true) :
    getExtensionTerminal w = createNewTerminal w := by
  unfold getExtensionTerminal
  cases hfind : w.terminals.find? (fun u => u.name == TERMINAL_NAME) with
  | none => rfl
  | some t =>
    have hp := List.find?_some hfind
    simp only [beq_iff_eq] at hp
    have hmem := List.mem_of_find?_eq_some hfind
    have hex : t.exited = true := h t hmem hp
    show (if t.exited = false then (t, w) else createNewTerminal w) =
      createNewTerminal w
    rw [if_neg (by simp [hex])]

/-- One console event preserves the session invariant when terminals
that exit are removed from the host list. -/
lemma consoleInvariant_step (w : TerminalWorld) (e : ConsoleEvent)
    (hlen : w.terminals.length ≤ 1)
    (hall : ∀ t ∈ w.terminals,
      t.name = TERMINAL_NAME ∧ t.exited = false ∧ t.createdByGateway = true) :
    (stepConsole w e).terminals.length ≤ 1 ∧
    ∀ t ∈ (stepConsole w e).terminals,
      t.name = TERMINAL_NAME ∧ t.exited = false ∧ t.createdByGateway = true := by
  cases e with
  | externalClose i =>
    constructor
    · calc (w.terminals.filter (fun t => ¬ t.id = i)).length
          ≤ w.terminals.length := List.length_filter_le _ _
        _ ≤ 1 := hlen
    · intro t ht
      exact hall t (List.mem_of_mem_filter ht)
  | request =>
    rcases hw : w.terminals with _ | ⟨t, rest⟩
    · have : getExtensionTerminal w = createNewTerminal w := by
        unfold getExtensionTerminal
        rw [hw]
        rfl
      simp [stepConsole, this, createNewTerminal, hw]
    · rcases rest with _ | ⟨u, rest2⟩
      · obtain ⟨hn, he, hg⟩ := hall t (by rw [hw]; exact List.mem_cons_self _ _)
        have hfind : w.terminals.find? (fun u => u.name == TERMINAL_NAME) =
            some t := by
          rw [hw]
          rw [List.find?_cons_of_pos _ (by simp [hn])]
        have hreuse := getExtensionTerminal_reuse w t hfind he
        simp only [stepConsole, hreuse]
        exact ⟨hlen, hall⟩
      · rw [hw] at hlen
        simp at hlen

/-- The session invariant holds along any event sequence from any world
that satisfies it. -/
lemma runConsole_invariant_aux (evs : List ConsoleEvent) :
    ∀ w : TerminalWorld, w.terminals.length ≤ 1 →
      (∀ t ∈ w.terminals,
        t.name = TERMINAL_NAME ∧ t.exited = false ∧ t.createdByGateway = true) →
      (evs.foldl stepConsole w).terminals.length ≤ 1 ∧
      ∀ t ∈ (evs.foldl stepConsole w).terminals,
        t.name = TERMINAL_NAME ∧ t.exited = false ∧ t.createdByGateway = true := by
  induction evs with
  | nil => intro w h1 h2; exact ⟨h1, h2⟩
  | cons e evs ih =>
    intro w h1 h2
    obtain ⟨h1s, h2s⟩ := consoleInvariant_step w e h1 h2
    exact ih (stepConsole w e) h1s h2s

/-- C9 (amended): when the first terminal carrying the fixed session
name has not exited it is reused, otherwise a new terminal with that
name is created; the terminal handed to the shell tool is always live
and carries the session name — in particular, when every terminal with
the session name has exited, a fresh one is created transparently; and
along any sequence of session requests and terminal closures (the host
removing a terminal that exited) at most one gateway-owned console is
alive at any time. -/
theorem terminal_session_management :
    (∀ (w : TerminalWorld) (t : Terminal),
        w.terminals.find? (fun u => u.name == TERMINAL_NAME) = some t →
        t.exited = false →
        getExtensionTerminal w = (t, w)) ∧
    (∀ w : TerminalWorld,
        (getExtensionTerminal w).1.name = TERMINAL_NAME ∧
        (getExtensionTerminal w).1.exited = false) ∧
    (∀ w : TerminalWorld,
        (∀ t ∈ w.terminals, t.name = TERMINAL_NAME → t.exited = true) →
        getExtensionTerminal w = createNewTerminal w) ∧
    (∀ evs : List ConsoleEvent,
        (runConsole evs).terminals.length ≤ 1 ∧
        ∀ t ∈ (runConsole evs).terminals,
          t.name = TERMINAL_NAME ∧ t.exited = false ∧
          t.createdByGateway = true) := by
  refine ⟨getExtensionTerminal_reuse, getExtensionTerminal_live,
    getExtensionTerminal_all_exited, fun evs => ?_⟩
  exact runConsole_invariant_aux evs emptyTerminalWorld (by simp [emptyTerminalWorld])
    (by simp [emptyTerminalWorld])

/-- C9 witness: a world containing one live terminal with the session
name reuses exactly that terminal and leaves the world unchanged. -/
theorem terminal_session_management_witness :
    getExtensionTerminal ⟨[⟨0, TERMINAL_NAME, false, true⟩], 1⟩ =
      (⟨0, TERMINAL_NAME, false, true⟩, ⟨[⟨0, TERMINAL_NAME, false, true⟩], 1⟩) :=
  terminal_session_management.1 ⟨[⟨0, TERMINAL_NAME, false, true⟩], 1⟩
    ⟨0, TERMINAL_NAME, false, true⟩ (by decide) (by decide)

/-- C9 counterexample: in a host terminal list where an exited terminal
with the session name precedes a live one (an exited terminal can stay
listed while its pane remains open, e.g. after the gateway replaced a
dead session once), a live terminal with the fixed session name exists
and yet the request does not reuse it — a brand-new terminal is created,
after which two live gateway-created consoles exist at the same time. -/
theorem terminal_reuse_counterexample :
    (∃ t ∈ (⟨[⟨0, TERMINAL_NAME, true, true⟩, ⟨1, TERMINAL_NAME, false, true⟩],
          2⟩ : TerminalWorld).terminals,
        t.name = TERMINAL_NAME ∧ t.exited = false) ∧
    (∀ t ∈ (⟨[⟨0, TERMINAL_NAME, true, true⟩, ⟨1, TERMINAL_NAME, false, true⟩],
          2⟩ : TerminalWorld).terminals,
        (getExtensionTerminal
          ⟨[⟨0, TERMINAL_NAME, true, true⟩, ⟨1, TERMINAL_NAME, false, true⟩],
            2⟩).1 ≠ t) ∧
    ((getExtensionTerminal
        ⟨[⟨0, TERMINAL_NAME, true, true⟩, ⟨1, TERMINAL_NAME, false, true⟩],
          2⟩).2.terminals.filter
        (fun t => t.createdByGateway && !t.exited)).length = 2 := by decide
